import Mathlib

/-!
# Verification of the vectors-gateway document vectorization pipeline

A shallow embedding of the core of the `vectors-gateway` repository:
the semantic chunking service (`src/lib/ai/semantic-chunking.ts`), the
document processor (`src/lib/ai/document-processor.ts`), the LiteLLM
embeddings client (`src/lib/ai/sdk/litellm-client.ts`), the Qdrant point
filters (`src/lib/ai/qdrant-service.ts`) and the relational metadata store
(`src/lib/db/vector-metadata.ts`, given here with the schema unique on
`(documentId, knowledgeBaseId)`).

Modelling conventions:
* JavaScript strings are Lean `String`s, manipulated through character
  lists so that every operation is executable and kernel-reducible.
  JS `.length` counts UTF-16 code units; we count characters, which agrees
  on all inputs considered here.
* JS numbers are modelled as exact arithmetic: `ℚ` or `ℝ` for floats
  (`ℝ` where the code takes square roots), `Int`/`Nat` for integral
  quantities.  `x % 1` on floats is `jsMod1`.
* `async` collaborators (the embedding HTTP call, the NLP sentence
  tokenizer) are functional parameters; a thrown exception or rejected
  promise is `Except.error` / `Option.none`.  `Promise.all` over
  `texts.map` is `List.mapM` in `Except`, which preserves index order —
  exactly the alignment guarantee JS gives.
* The two persistent stores (Qdrant collection, Postgres table) are lists
  of records in a `Store`; SQL `WHERE` clauses become list filters over
  the same fields the drizzle queries use.  Timestamp columns
  (`vectorizedAt`, `createdAt`, `updatedAt`) carry no logical content for
  the properties below and are omitted.
-/

set_option linter.unusedVariables false

namespace VectorsGateway

/-! ## Character classes used by the regexes in `semantic-chunking.ts` -/

/-- JS `\s` (the regexp whitespace class, ECMA-262 WhiteSpace ∪ LineTerminator). -/
def isJsWhitespace (c : Char) : Bool :=
  c = ' ' || c = '\t' || c = '\n' || c = '\r' ||
  c.val = 0x0B || c.val = 0x0C || c.val = 0xA0 || c.val = 0x1680 ||
  (0x2000 ≤ c.val && c.val ≤ 0x200A) || c.val = 0x2028 || c.val = 0x2029 ||
  c.val = 0x202F || c.val = 0x205F || c.val = 0x3000 || c.val = 0xFEFF

/-- The class `[\u0000-\u001F\u007F-\u009F]` removed by `cleanText`. -/
def isControlChar (c : Char) : Bool :=
  c.val ≤ 0x1F || (0x7F ≤ c.val && c.val ≤ 0x9F)

/-- JS `\w` = `[A-Za-z0-9_]`. -/
def isWordChar (c : Char) : Bool :=
  ('a' ≤ c && c ≤ 'z') || ('A' ≤ c && c ≤ 'Z') || ('0' ≤ c && c ≤ '9') || c = '_'

/-- The explicit punctuation set kept by `cleanText`. -/
def isSafePunct (c : Char) : Bool :=
  c = '.' || c = ',' || c = '!' || c = '?' || c = ';' || c = ':' ||
  c = '(' || c = ')' || c = '-' || c = '\'' || c = '"'

/-- A character kept by `cleanText` (the complement of `[^\w\s.,!?;:()\-aq]`-style class). -/
def isSafeChar (c : Char) : Bool :=
  isWordChar c || isJsWhitespace c || isSafePunct c

/-- Sentence-ending punctuation `[.!?]`. -/
def isSentencePunct (c : Char) : Bool :=
  c = '.' || c = '!' || c = '?'

/-- The class `[A-Z]` used by the lookahead in the fallback sentence splitter. -/
def isUpperAZ (c : Char) : Bool :=
  'A' ≤ c && c ≤ 'Z'

/-! ## JS string primitives -/

/-- The character list of `String.prototype.trim`: whitespace stripped from
both ends. -/
def trimChars (l : List Char) : List Char :=
  ((l.dropWhile isJsWhitespace).reverse.dropWhile isJsWhitespace).reverse

/-- JS `s.trim()`. -/
def jsTrim (s : String) : String :=
  String.mk (trimChars s.data)

/-- Split a character list at every character satisfying `p`
(JS `String.prototype.split` with a single-character class). -/
def jsSplitChars (p : Char → Bool) : List Char → List (List Char)
  | [] => [[]]
  | c :: rest =>
    if p c then [] :: jsSplitChars p rest
    else
      match jsSplitChars p rest with
      | [] => [[c]]
      | seg :: segs => (c :: seg) :: segs

/-- JS `s.split(/[c]/)` for a character class `p`.  The source splits on
`/[.!?]+/`; splitting on the single characters instead produces extra empty
segments between adjacent punctuation marks, and every caller immediately
filters out segments that are empty after trimming, so the composed results
coincide. -/
def jsSplit (p : Char → Bool) (s : String) : List String :=
  (jsSplitChars p s.data).map String.mk

/-- One pass of `replace(/\s+/g, " ")`: every maximal whitespace run becomes
a single space.  The boolean records whether the previous character was
whitespace (i.e. we are inside a run that already emitted its space). -/
def collapseWsAux : List Char → Bool → List Char
  | [], _ => []
  | c :: rest, prevWs =>
    if isJsWhitespace c then
      if prevWs then collapseWsAux rest true
      else ' ' :: collapseWsAux rest true
    else c :: collapseWsAux rest false

/-! ## SemanticChunkingService: text cleaning and sentence splitting -/

/-- Model of `SemanticChunkingService.cleanText`: remove control characters, collapse
whitespace runs to a single space, remove characters outside the safe set,
trim. -/
def cleanText (text : String) : String :=
  jsTrim (String.mk ((collapseWsAux (text.data.filter (fun c => !isControlChar c)) false).filter
    isSafeChar))

/-- The scanner for the regex split `/(?<=[.!?])\s+(?=[A-Z])/` of
`fallbackSentenceSplitting`.  A maximal whitespace run is a separator
exactly when the character before it is `[.!?]` and the character after it
is `[A-Z]` (with backtracking, a shorter match would put a whitespace
character in the lookahead, so only whole runs can match).  State:
the current segment and the pending whitespace run, both reversed, and
whether the character preceding the pending run was sentence punctuation. -/
def regexSplitGo : List Char → List Char → List Char → Bool → List String
  | [], segRev, pendingRev, _ => [String.mk (pendingRev ++ segRev).reverse]
  | c :: rest, segRev, pendingRev, punctBefore =>
    if isJsWhitespace c then
      if pendingRev.isEmpty then
        regexSplitGo rest segRev [c]
          (match segRev with
           | p :: _ => isSentencePunct p
           | [] => false)
      else
        regexSplitGo rest segRev (c :: pendingRev) punctBefore
    else
      if !pendingRev.isEmpty && punctBefore && isUpperAZ c then
        String.mk segRev.reverse :: regexSplitGo rest [c] [] false
      else
        regexSplitGo rest (c :: (pendingRev ++ segRev)) [] false

/-- JS `text.split(/(?<=[.!?])\s+(?=[A-Z])/)`. -/
def regexSplitSentences (text : String) : List String :=
  regexSplitGo text.data [] [] false

/-- Model of `SemanticChunkingService.fallbackSentenceSplitting`. -/
def fallbackSentenceSplitting (text : String) : List String :=
  let sentences :=
    ((regexSplitSentences text).filter (fun s => decide (0 < (jsTrim s).data.length))).map jsTrim
  if 0 < sentences.length then sentences else [text]

/-- Model of `SemanticChunkingService.splitToSentences`.  The NLP tokenizer
(`natural.SentenceTokenizerNew`) is an external collaborator, passed as
`tok`; `none` models the tokenizer throwing, which the source catches and
answers with the regex fallback over the cleaned text. -/
def splitToSentences (tok : String → Option (List String)) (textCorpus : String) : List String :=
  let cleanedText := cleanText textCorpus
  match tok cleanedText with
  | some sentences =>
    let validSentences :=
      (sentences.filter (fun s => decide (0 < (jsTrim s).data.length))).map jsTrim
    if 0 < validSentences.length then validSentences
    else fallbackSentenceSplitting cleanedText
  | none => fallbackSentenceSplitting (cleanText textCorpus)

/-! ## SemanticChunkingService: context windows -/

/-- One element of the `SentenceObject[]` array after `structureSentences`
has filled in `combined_sentence` (embeddings are attached separately). -/
structure SentenceObject where
  sentence : String
  index : Nat
  combined_sentence : String
deriving DecidableEq

/-- The `combinedSentence` string built by the two `for` loops of
`structureSentences` for index `i`.  The previous-neighbor loop runs
`j = i - bufferSize, …, i - 1` guarded by `j ≥ 0`, i.e. over
`List.range' (i - bufferSize) (min bufferSize i)` in `Nat` arithmetic, and
appends `sentence + " "`.  Then the current sentence plus `" "` is
appended.  The next-neighbor loop runs `j = i + 1, …, i + bufferSize`
guarded by `j < n`, i.e. over `List.range' (i + 1) (min bufferSize
(n - 1 - i))`, and appends `sentence` with no separator.  Finally the
result is trimmed. -/
def combinedSentenceAt (sentences : List String) (bufferSize i : Nat) : String :=
  let afterPrev :=
    (List.range' (i - bufferSize) (min bufferSize i)).foldl
      (fun acc j => acc ++ (sentences.getD j "" ++ " ")) ""
  let afterCur := afterPrev ++ (sentences.getD i "" ++ " ")
  let afterNext :=
    (List.range' (i + 1) (min bufferSize (sentences.length - 1 - i))).foldl
      (fun acc j => acc ++ sentences.getD j "") afterCur
  jsTrim afterNext

/-- Model of `SemanticChunkingService.structureSentences`. -/
def structureSentences (sentences : List String) (bufferSize : Nat) : List SentenceObject :=
  (List.range sentences.length).map
    (fun i => ⟨sentences.getD i "", i, combinedSentenceAt sentences bufferSize i⟩)

/-! ## SemanticChunkingService: cosine distances and thresholding -/

/-- Model of `math.dot` (the source only applies it to equal-length vectors). -/
def dotList (a b : List ℝ) : ℝ :=
  (List.zipWith (fun x y => x * y) a b).sum

/-- The sum of squares under `math.norm`. -/
def normSq (v : List ℝ) : ℝ :=
  (v.map (fun x => x * x)).sum

/-- Model of `math.norm` (Euclidean). -/
noncomputable def normList (v : List ℝ) : ℝ :=
  Real.sqrt (normSq v)

open Classical in
/-- Model of `SemanticChunkingService.cosineSimilarity`: similarity `0` when either
norm is zero, else `dot / (normA * normB)`. -/
noncomputable def cosineSimilarity (vecA vecB : List ℝ) : ℝ :=
  if normList vecA = 0 ∨ normList vecB = 0 then 0
  else dotList vecA vecB / (normList vecA * normList vecB)

/-- The `distances` array of
`calculateCosineDistancesAndSignificantShifts`: for every index `i` with a
successor, if both `combined_sentence_embedding`s are present (JS
truthiness: `undefined` is falsy, any array — even empty — is truthy), push
`1 - cosineSimilarity`. -/
noncomputable def cosineDistances (embs : List (Option (List ℝ))) : List ℝ :=
  (List.range (embs.length - 1)).filterMap
    (fun i =>
      match embs.getD i none, embs.getD (i + 1) none with
      | some a, some b => some (1 - cosineSimilarity a b)
      | _, _ => none)

/-- JS `x % 1` (remainder takes the sign of the dividend). -/
def jsMod1 {α : Type} [LinearOrderedField α] [FloorRing α] (x : α) : α :=
  if 0 ≤ x then Int.fract x else -(Int.fract (-x))

/-- Model of `SemanticChunkingService.quantile`.  `index = (length - 1) * q`,
`lower = floor(index)`, `upper = ceil(index)`, `weight = index % 1`; if
`upper` is out of range the last element is returned, otherwise the linear
interpolation `d[lower]*(1-weight) + d[upper]*weight`.  Indices are used
via `getD _ 0`; for the quantiles the service asks for (`q ∈ [0,1]`, list
non-empty) both indices are in range, matching the JS array accesses. -/
def quantile {α : Type} [LinearOrderedField α] [FloorRing α]
    (sortedArray : List α) (q : α) : α :=
  let index : α := ((sortedArray.length : α) - 1) * q
  let lower : ℤ := ⌊index⌋
  let upper : ℤ := ⌈index⌉
  let weight : α := jsMod1 index
  if (sortedArray.length : ℤ) ≤ upper then
    sortedArray.getD (sortedArray.length - 1) 0
  else
    sortedArray.getD lower.toNat 0 * (1 - weight) + sortedArray.getD upper.toNat 0 * weight

/-! ## SemanticChunkingService: grouping and fallback chunking -/

/-- JS `Array.prototype.join(" ")`. -/
def spaceJoin : List String → String
  | [] => ""
  | [s] => s
  | s :: rest => s ++ " " ++ spaceJoin rest

/-- Concatenation of a list of strings with no separator (JS
`Array.prototype.join("")`; used to state how `structureSentences`
assembles the following-neighbor part of a context window). -/
def strJoin : List String → String
  | [] => ""
  | s :: rest => s ++ strJoin rest

/-- Model of `SemanticChunkingService.groupSentencesIntoChunks`: breakpoints are the
shift indices plus the final index; each `slice(startIdx, breakpoint + 1)`
of sentences is joined with `" "`. -/
def groupSentencesIntoChunks (sentences : List String) (shiftIndices : List Nat) : List String :=
  let adjustedBreakpoints := shiftIndices ++ [sentences.length - 1]
  (adjustedBreakpoints.foldl
    (fun (acc : List String × Nat) breakpoint =>
      let group := (sentences.drop acc.2).take (breakpoint + 1 - acc.2)
      (acc.1 ++ [spaceJoin group], breakpoint + 1))
    ([], 0)).1

/-- The sentence list of `fallbackToSimpleChunking`:
`content.split(/[.!?]+/).filter(s => s.trim().length > 0)`. -/
def fallbackSentences (content : String) : List String :=
  (jsSplit isSentencePunct content).filter (fun s => decide (0 < (jsTrim s).data.length))

/-- One iteration of the accumulation loop of `fallbackToSimpleChunking`:
extend the current chunk with the next trimmed sentence, flushing first
when that would exceed 2000 characters and the current chunk is non-empty. -/
def fallbackStep (acc : List String × String) (sentence : String) : List String × String :=
  let potentialChunk := acc.2 ++ (if acc.2 = "" then "" else " ") ++ jsTrim sentence
  if 2000 < potentialChunk.data.length ∧ 0 < acc.2.data.length then
    (acc.1 ++ [jsTrim acc.2], jsTrim sentence)
  else
    (acc.1, potentialChunk)

/-- Model of `SemanticChunkingService.fallbackToSimpleChunking`. -/
def fallbackToSimpleChunking (content : String) : List String :=
  let r := (fallbackSentences content).foldl fallbackStep ([], "")
  if 0 < (jsTrim r.2).data.length then r.1 ++ [jsTrim r.2] else r.1

/-! ## SemanticChunkingService: the main entry point -/

/-- The `try` block of `performSemanticChunking`, with the thrown errors as
`Except.error`.  `tok` is the external NLP tokenizer, `embedAll` the
LiteLLM embeddings call for a list of texts (a rejected promise is
`Except.error`).  In `generateAndAttachEmbeddings` every element has a
`combined_sentence`, so the `filter` keeps all of them and the positional
attachment gives element `i` the embedding `embeddingsArray[i]`
(`undefined`, i.e. `none`, past the end).  In the source an empty distance
list makes `quantile` read `sortedArray[-1]`, return `undefined` and hit
the explicit `breakpointDistanceThreshold === undefined` throw; here that
is the emptiness check before calling `quantile`. -/
noncomputable def performSemanticChunkingE (tok : String → Option (List String))
    (embedAll : List String → Except String (List (List ℝ)))
    (content : String) (bufferSize percentileThreshold : Nat) :
    Except String (List String) :=
  if (jsTrim content).data.length = 0 then Except.error "Content is empty or invalid"
  else
    let sentences := splitToSentences tok content
    if sentences.length = 0 then Except.error "No valid sentences found in content"
    else if sentences.length ≤ 2 then Except.ok sentences
    else
      let structuredSentences := structureSentences sentences bufferSize
      match embedAll (structuredSentences.map (fun s => s.combined_sentence)) with
      | Except.error e => Except.error e
      | Except.ok embeddingsArray =>
        let embOpts := (List.range structuredSentences.length).map
          (fun i => embeddingsArray.get? i)
        let distances := cosineDistances embOpts
        let sortedDistances := distances.mergeSort (fun a b => decide (a ≤ b))
        if sortedDistances.length = 0 then
          Except.error "Failed to calculate breakpoint distance threshold"
        else
          let breakpointDistanceThreshold :=
            quantile sortedDistances ((percentileThreshold : ℝ) / 100)
          let significantShiftIndices := (List.range distances.length).filter
            (fun i => decide (breakpointDistanceThreshold < distances.getD i 0))
          Except.ok (groupSentencesIntoChunks
            (structuredSentences.map (fun s => s.sentence)) significantShiftIndices)

/-- Model of `SemanticChunkingService.performSemanticChunking`: any failure of the
`try` block falls back to `fallbackToSimpleChunking` on the original
content. -/
noncomputable def performSemanticChunking (tok : String → Option (List String))
    (embedAll : List String → Except String (List (List ℝ)))
    (content : String) (bufferSize percentileThreshold : Nat) : List String :=
  match performSemanticChunkingE tok embedAll content bufferSize percentileThreshold with
  | Except.ok chunks => chunks
  | Except.error _ => fallbackToSimpleChunking content

/-! ## LiteLLMClient -/

/-- Model of `LiteLLMClient.getEmbeddings`: one request per text
(`texts.map(async …)`), awaited with `Promise.all`, which resolves to the
results in input order or rejects if any request rejects — in `Except`,
exactly `List.mapM`. -/
def getEmbeddings {ε α : Type} (fetchOne : String → Except ε (List α))
    (texts : List String) : Except ε (List (List α)) :=
  texts.mapM fetchOne

/-! ## Stores -/

/-- A row of `document_vector_metadata` (timestamps omitted; the table is
unique on `(documentId, knowledgeBaseId)`). -/
structure MetaRow where
  documentId : Int
  knowledgeBaseId : Int
  userId : Int
  vectorCount : Nat
  isVectorized : Bool
deriving DecidableEq

/-- A point in the Qdrant collection (payload flattened; `createdAt`
omitted). -/
structure VectorPoint where
  id : Int
  vector : List ℝ
  documentId : Int
  knowledgeBaseId : Int
  userId : Int
  chunkIndex : Nat
  totalChunks : Nat
  content : String
  originalContent : String

/-- The two persistent stores. -/
structure Store where
  points : List VectorPoint
  metaRows : List MetaRow

/-- The drizzle `WHERE documentId = ? AND knowledgeBaseId = ?` conjunction
used by queries scoped to the pair. -/
def metaKeyMatches (documentId knowledgeBaseId : Int) (r : MetaRow) : Bool :=
  r.documentId == documentId && r.knowledgeBaseId == knowledgeBaseId

/-- Modelled from the spec: `upsertDocumentVectorMetadata` is imported by
`document-processor.ts` from `../db/vector-metadata` but its definition is
not among the provided sources.  Per spec §4.6 step 1 and §6 it is an
idempotent create-or-reset keyed by the table's unique pair
`(documentId, knowledgeBaseId)`: an existing row for the pair is
overwritten with the given values, otherwise the row is inserted. -/
def upsertDocumentVectorMetadata (row : MetaRow) (rows : List MetaRow) : List MetaRow :=
  if rows.any (metaKeyMatches row.documentId row.knowledgeBaseId) then
    rows.map (fun r => if metaKeyMatches row.documentId row.knowledgeBaseId r then row else r)
  else rows ++ [row]

/-- Model of `markDocumentAsVectorized` via `updateDocumentVectorMetadata`
(`vector-metadata.ts`): the SQL `UPDATE … WHERE documentId = ?` filters on
`documentId` only — `knowledgeBaseId` is not part of the `where` — so every
row with that `documentId` is updated, in any knowledge base. -/
def markDocumentAsVectorized (documentId : Int) (vectorCount : Nat)
    (rows : List MetaRow) : List MetaRow :=
  rows.map (fun r =>
    if r.documentId == documentId then
      { r with isVectorized := true, vectorCount := vectorCount }
    else r)

/-- Model of `deleteDocumentVectorMetadata` (`vector-metadata.ts`): the SQL
`DELETE … WHERE documentId = ?` filters on `documentId` only. -/
def deleteDocumentVectorMetadata (documentId : Int) (rows : List MetaRow) : List MetaRow :=
  rows.filter (fun r => !(r.documentId == documentId))

/-- Model of `QdrantService.deleteDocumentVectors`: the delete filter `must`-matches
both `documentId` and `knowledgeBaseId`. -/
def qdrantDeleteDocumentVectors (documentId knowledgeBaseId : Int)
    (points : List VectorPoint) : List VectorPoint :=
  points.filter (fun p => !(p.documentId == documentId && p.knowledgeBaseId == knowledgeBaseId))

/-! ## DocumentProcessor -/

/-- A chunk as assembled by `processDocument` (`ChunkedDocument` with its
metadata flattened). -/
structure ChunkedDocument where
  id : Int
  content : String
  documentId : Int
  knowledgeBaseId : Int
  userId : Int
  chunkIndex : Nat
  totalChunks : Nat
  originalContent : String

/-- Model of `DocumentProcessor.processDocument`.  Returns the store after the run
together with the outcome; a thrown error is `Except.error` with the
message the outer `catch` rethrows (`"Failed to process document: " ++ …`),
and the store component records the mutations performed before the throw.
Collaborator store operations themselves are modelled as succeeding; the
inner `try/catch` around the pre-delete swallows its errors in the source,
and the per-chunk vector re-validation inside
`QdrantService.storeDocumentVectors` cannot fire because `processDocument`
has just validated every embedding.  In the source the invalid-embedding
throw interpolates `typeof embeddings[i]`, which is `"object"` for the
empty arrays that are the only invalid case representable here. -/
noncomputable def processDocument (tok : String → Option (List String))
    (embedAll : List String → Except String (List (List ℝ)))
    (content : String) (documentId knowledgeBaseId userId : Int)
    (st : Store) : Store × Except String Nat :=
  let st1 : Store :=
    { st with metaRows :=
        upsertDocumentVectorMetadata ⟨documentId, knowledgeBaseId, userId, 0, false⟩ st.metaRows }
  let st2 : Store :=
    { st1 with points := qdrantDeleteDocumentVectors documentId knowledgeBaseId st1.points }
  let semanticChunks := performSemanticChunking tok embedAll content 1 90
  let chunks : List ChunkedDocument := semanticChunks.enum.map
    (fun p => ⟨documentId * 1000 + (p.1 : Int), p.2, documentId, knowledgeBaseId, userId,
      p.1, semanticChunks.length, content⟩)
  let chunkTexts := chunks.map (fun c => c.content)
  match embedAll chunkTexts with
  | Except.error e => (st2, Except.error ("Failed to process document: " ++ e))
  | Except.ok embeddings =>
    if embeddings.length ≠ chunks.length then
      (st2, Except.error ("Failed to process document: Embedding mismatch: expected " ++
        toString chunks.length ++ " embeddings, got " ++ toString embeddings.length ++
        ". Chunk texts: " ++ toString chunkTexts.length ++ ", Embeddings: " ++
        toString embeddings.length))
    else
      match (List.range embeddings.length).find?
          (fun i => (embeddings.getD i []).length == 0) with
      | some i =>
        (st2, Except.error ("Failed to process document: Invalid embedding at index " ++
          toString i ++ ": expected array, got object"))
      | none =>
        let newPoints : List VectorPoint := (chunks.zip embeddings).map
          (fun p => ⟨p.1.id, p.2, p.1.documentId, p.1.knowledgeBaseId, p.1.userId,
            p.1.chunkIndex, p.1.totalChunks, p.1.content, p.1.originalContent⟩)
        let st3 : Store := { st2 with points := st2.points ++ newPoints }
        let st4 : Store :=
          { st3 with metaRows := markDocumentAsVectorized documentId chunks.length st3.metaRows }
        (st4, Except.ok chunks.length)

/-- Model of `DocumentProcessor.deleteDocumentVectors`: `try { qdrant delete;
metadata delete; return true } catch { return false }`.  The two boolean
parameters say whether the respective awaited collaborator call rejects
(the store is then left as it was at the throw).  The function returns a
`Bool`, never an error. -/
def deleteDocumentVectors (documentId knowledgeBaseId : Int)
    (qdrantFails metadataFails : Bool) (st : Store) : Store × Bool :=
  if qdrantFails then (st, false)
  else
    let st1 : Store :=
      { st with points := qdrantDeleteDocumentVectors documentId knowledgeBaseId st.points }
    if metadataFails then (st1, false)
    else ({ st1 with metaRows := deleteDocumentVectorMetadata documentId st1.metaRows }, true)

/-- Decidable equality for `Except`, used to evaluate outcomes at concrete
inputs. -/
instance {ε α : Type} [DecidableEq ε] [DecidableEq α] : DecidableEq (Except ε α) := fun x y =>
  match x, y with
  | .ok a, .ok b =>
    if h : a = b then .isTrue (by rw [h]) else .isFalse (by intro hh; cases hh; exact h rfl)
  | .error a, .error b =>
    if h : a = b then .isTrue (by rw [h]) else .isFalse (by intro hh; cases hh; exact h rfl)
  | .ok _, .error _ => .isFalse (fun hh => Except.noConfusion hh)
  | .error _, .ok _ => .isFalse (fun hh => Except.noConfusion hh)

end VectorsGateway

/-! # Helper lemmas -/

namespace VectorsGateway

theorem strAppend_assoc (a b c : String) : a ++ b ++ c = a ++ (b ++ c) :=
  String.ext (by simp [String.data_append])

theorem strAppend_empty (s : String) : s ++ "" = s :=
  String.ext (by simp [String.data_append])

theorem strEmpty_append (s : String) : "" ++ s = s :=
  String.ext (by simp [String.data_append])

theorem data_jsTrim (s : String) : (jsTrim s).data = trimChars s.data := rfl

/-- The first element surviving `dropWhile p` does not satisfy `p`. -/
theorem dropWhile_head_not {p : Char → Bool} :
    ∀ {l c t}, List.dropWhile p l = c :: t → p c = false := by
  intro l
  induction l with
  | nil => intro c t h; cases h
  | cons a l ih =>
    intro c t h
    rw [List.dropWhile_cons] at h
    by_cases hpa : p a
    · rw [if_pos hpa] at h; exact ih h
    · rw [if_neg hpa] at h
      cases h
      simpa using hpa

/-- A trimmed-nonempty string contains a non-whitespace character (in its
trimmed part). -/
theorem exists_nonWs_of_trimChars_ne_nil {l : List Char} (h : trimChars l ≠ []) :
    ∃ c ∈ trimChars l, isJsWhitespace c = false := by
  unfold trimChars at *
  rcases hd : List.dropWhile isJsWhitespace (l.dropWhile isJsWhitespace).reverse with _ | ⟨c, t⟩
  · rw [hd] at h; simp at h
  · refine ⟨c, ?_, dropWhile_head_not hd⟩
    simp

/-- If the trim of a character list is empty, every character is whitespace. -/
theorem all_ws_of_trimChars_eq_nil {l : List Char} (h : trimChars l = []) :
    ∀ c ∈ l, isJsWhitespace c = true := by
  unfold trimChars at h
  rw [List.reverse_eq_nil_iff, List.dropWhile_eq_nil_iff] at h
  intro c hc
  rw [← List.takeWhile_append_dropWhile isJsWhitespace l] at hc
  rcases List.mem_append.mp hc with hm | hm
  · exact List.mem_takeWhile_imp hm
  · exact h c (List.mem_reverse.mpr hm)

theorem trimChars_ne_nil_of_exists {l : List Char}
    (h : ∃ c ∈ l, isJsWhitespace c = false) : trimChars l ≠ [] := by
  intro hnil
  obtain ⟨c, hc, hw⟩ := h
  rw [all_ws_of_trimChars_eq_nil hnil c hc] at hw
  cases hw

end VectorsGateway

namespace VectorsGateway

/-! # C1 — metadata operations are not scoped to the isolation triple -/

/-- C1 (failing input): the metadata store rows `(documentId 1,
knowledgeBaseId 1)` and `(documentId 1, knowledgeBaseId 2)` share a
`documentId` but live in different knowledge bases.  `deleteDocument` for
`(1, 1)` also deletes the knowledge-base-2 row, because
`deleteDocumentVectorMetadata` filters on `documentId` alone; and the
`markDocumentAsVectorized` step of an ingest of `(1, 1)` also marks the
knowledge-base-2 row vectorized and overwrites its `vectorCount`, because
`updateDocumentVectorMetadata` filters on `documentId` alone.  This
contradicts the claim that the other row is left unchanged. -/
theorem metadata_ops_cross_knowledge_bases :
    (deleteDocumentVectors 1 1 false false
        ⟨[], [⟨1, 1, 10, 5, true⟩, ⟨1, 2, 20, 7, true⟩]⟩).1.metaRows = [] ∧
    markDocumentAsVectorized 1 3 [⟨1, 1, 10, 0, false⟩, ⟨1, 2, 20, 7, false⟩] =
      [⟨1, 1, 10, 3, true⟩, ⟨1, 2, 20, 3, true⟩] := by
  decide

/-! # C9 — deleteDocument returns a boolean instead of throwing -/

/-- C9: `DocumentProcessor.deleteDocumentVectors` returns a `Bool`
(never an error value): `true` exactly when both the vector-store delete
and the metadata delete succeed, `false` when either underlying operation
fails. -/
theorem deleteDocumentVectors_boolean (documentId knowledgeBaseId : Int)
    (qdrantFails metadataFails : Bool) (st : Store) :
    (deleteDocumentVectors documentId knowledgeBaseId qdrantFails metadataFails st).2 = true ↔
      qdrantFails = false ∧ metadataFails = false := by
  cases qdrantFails <;> cases metadataFails <;> simp [deleteDocumentVectors]

/-! # C2 — the quantile is the linear interpolation of order statistics -/

/-- General form of the quantile formula: for a non-empty list and
`q ∈ [0, 1]` the out-of-range guard never fires and the returned value is
the linear interpolation between the order statistics at `floor(idx)` and
`ceil(idx)`, `idx = q * (n - 1)`, with fraction `idx - floor(idx)`. -/
theorem quantile_interp_aux {α : Type} [LinearOrderedField α] [FloorRing α]
    (d : List α) (q : α) (hn : 1 ≤ d.length) (h0 : 0 ≤ q) (h1 : q ≤ 1) :
    quantile d q =
      d.getD (⌊((d.length : α) - 1) * q⌋).toNat 0 *
          (1 - (((d.length : α) - 1) * q - ⌊((d.length : α) - 1) * q⌋)) +
        d.getD (⌈((d.length : α) - 1) * q⌉).toNat 0 *
          (((d.length : α) - 1) * q - ⌊((d.length : α) - 1) * q⌋) := by
  have hn1 : (1 : α) ≤ (d.length : α) := by exact_mod_cast hn
  have hidx0 : 0 ≤ ((d.length : α) - 1) * q := mul_nonneg (by linarith) h0
  have hup : ⌈((d.length : α) - 1) * q⌉ ≤ (d.length : ℤ) - 1 := by
    rw [Int.ceil_le]
    push_cast
    nlinarith
  simp only [quantile]
  rw [if_neg (by omega), jsMod1, if_pos hidx0, Int.fract]

/-- C2: the boundary threshold of `SemanticChunkingService.quantile`
is the percentile-derived quantile computed by linear interpolation between
order statistics; in particular for distances `[0.1, 0.2, 0.3, 0.4, 0.5]`
and `percentileThreshold = 90` (quantile `90/100`) the threshold is
`0.46`. -/
theorem quantile_linear_interpolation :
    (∀ {α : Type} [LinearOrderedField α] [FloorRing α] (d : List α) (q : α),
        1 ≤ d.length → 0 ≤ q → q ≤ 1 →
        quantile d q =
          d.getD (⌊((d.length : α) - 1) * q⌋).toNat 0 *
              (1 - (((d.length : α) - 1) * q - ⌊((d.length : α) - 1) * q⌋)) +
            d.getD (⌈((d.length : α) - 1) * q⌉).toNat 0 *
              (((d.length : α) - 1) * q - ⌊((d.length : α) - 1) * q⌋)) ∧
    quantile [(0.1 : ℚ), 0.2, 0.3, 0.4, 0.5] (90 / 100) = 0.46 := by
  constructor
  · intro α _ _ d q hn h0 h1
    exact quantile_interp_aux d q hn h0 h1
  · have hc : ⌈(18 : ℚ) / 5⌉ = 4 := by
      rw [Int.ceil_eq_iff]
      constructor <;> norm_num
    simp only [quantile]
    norm_num
    rw [hc]
    norm_num [jsMod1, Int.fract]
    norm_num [Int.toNat]

/-- Witness for C2: the general conjunct applied at the concrete sorted
list `[3, 7]` with `q = 1/2`, hypotheses discharged. -/
theorem quantile_linear_interpolation_witness :
    1 ≤ [(3 : ℚ), 7].length ∧ quantile [(3 : ℚ), 7] (1 / 2) = 5 := by
  refine ⟨by norm_num, ?_⟩
  have h := quantile_linear_interpolation.1 [(3 : ℚ), 7] (1 / 2)
    (by norm_num) (by norm_num) (by norm_num)
  rw [h]
  have hc : ⌈(1 : ℚ) / 2⌉ = 1 := by
    rw [Int.ceil_eq_iff]
    constructor <;> norm_num
  norm_num
  rw [hc]
  norm_num

end VectorsGateway

namespace VectorsGateway

/-! # C4 — getEmbeddings is index-aligned -/

/-- C4: `LiteLLMClient.getEmbeddings` is index-aligned: with a stub
per-text embedding function `f` that always succeeds, the result is `ok`
of one vector per input text, and position `i` of the output is
`f texts[i]`.  The concurrent dispatch is `Promise.all(texts.map …)`,
whose aggregation (modelled by `List.mapM`) preserves input order. -/
theorem getEmbeddings_index_aligned (f : String → List ℚ) (texts : List String) :
    getEmbeddings (ε := String) (fun t => Except.ok (f t)) texts = Except.ok (texts.map f) ∧
    (texts.map f).length = texts.length ∧
    ∀ i, i < texts.length → (texts.map f).getD i [] = f (texts.getD i "") := by
  refine ⟨?_, List.length_map texts f, ?_⟩
  · unfold getEmbeddings
    induction texts with
    | nil => rfl
    | cons t ts ih => rw [List.mapM_cons, ih]; rfl
  · intro i hi
    rw [List.getD_eq_getElem _ _ (by simpa using hi), List.getD_eq_getElem _ _ hi,
      List.getElem_map]

/-- Witness for C4 at `["a", "bb", "ccc"]` with the stub
`f t = [t.data.length]`. -/
theorem getEmbeddings_index_aligned_witness :
    getEmbeddings (ε := String) (fun t => Except.ok [(t.data.length : ℚ)]) ["a", "bb", "ccc"] =
      Except.ok [[1], [2], [3]] ∧
    (1 : ℕ) < ["a", "bb", "ccc"].length ∧
    (["a", "bb", "ccc"].map (fun t => [(t.data.length : ℚ)])).getD 1 [] = [2] := by
  have h := getEmbeddings_index_aligned (fun t => [(t.data.length : ℚ)]) ["a", "bb", "ccc"]
  refine ⟨?_, by norm_num, ?_⟩
  · rw [h.1]
    decide
  · rw [h.2.2 1 (by norm_num)]
    decide

/-! # C5 — the fallback chunker on inputs with no chunkable content -/

/-- C5 (counterexample): the input `"."` has positive length but
`fallbackToSimpleChunking` returns no chunks for it: the split on
sentence-ending punctuation leaves only segments that are empty after
trimming, so the accumulation loop never runs and the final flush has
nothing to push. -/
theorem fallbackToSimpleChunking_dot_empty :
    0 < ("." : String).data.length ∧ fallbackToSimpleChunking "." = [] := by
  decide

/-- One step of the accumulation loop, fed a sentence that survived the
trim filter, leaves the state with either a flushed chunk or a current
chunk containing a non-whitespace character. -/
theorem fallbackStep_keeps_content (acc : List String × String) (s : String)
    (hs : trimChars s.data ≠ []) :
    (fallbackStep acc s).1 ≠ [] ∨
      ∃ c ∈ (fallbackStep acc s).2.data, isJsWhitespace c = false := by
  obtain ⟨c, hc, hw⟩ := exists_nonWs_of_trimChars_ne_nil hs
  have hc2 : c ∈ (jsTrim s).data := hc
  unfold fallbackStep
  split <;> dsimp only <;> split <;>
    first
      | (left; simp; done)
      | (right; exact ⟨c, by simp only [String.data_append, List.mem_append]; tauto, hw⟩)

/-- C5 (amended): `fallbackToSimpleChunking` returns at least one chunk
whenever the sentence-splitting step yields at least one sentence that is
non-empty after trimming (for positive-length inputs consisting only of
whitespace and sentence punctuation it returns the empty list). -/
theorem fallbackToSimpleChunking_ne_nil (content : String)
    (h : fallbackSentences content ≠ []) : fallbackToSimpleChunking content ≠ [] := by
  rcases List.eq_nil_or_concat (fallbackSentences content) with hnil | ⟨L, last, hconcat⟩
  · exact absurd hnil h
  · have hmem : last ∈ fallbackSentences content := by
      rw [hconcat, List.concat_eq_append]
      exact List.mem_append_right _ (List.mem_singleton_self _)
    have hlast : trimChars last.data ≠ [] := by
      have hp := of_decide_eq_true (List.mem_filter.mp hmem).2
      intro hz
      rw [data_jsTrim, hz] at hp
      simp at hp
    unfold fallbackToSimpleChunking
    rw [hconcat, List.concat_eq_append, List.foldl_append, List.foldl_cons, List.foldl_nil]
    dsimp only
    rcases fallbackStep_keeps_content (List.foldl fallbackStep ([], "") L) last hlast with
      h1 | h2
    · split
      · simp
      · exact h1
    · rw [if_pos (by rw [data_jsTrim]; exact List.length_pos.mpr (trimChars_ne_nil_of_exists h2))]
      simp

/-- Witness for the amended C5: the input `"a"` splits into one surviving
sentence and yields a chunk. -/
theorem fallbackToSimpleChunking_ne_nil_witness :
    fallbackSentences "a" ≠ [] ∧ fallbackToSimpleChunking "a" ≠ [] :=
  ⟨by decide, fallbackToSimpleChunking_ne_nil "a" (by decide)⟩

/-! # C6 — zero-norm vectors give distance 1, not 2 -/

/-- C6 (counterexample): for the window embeddings `[0]` (zero norm)
and `[1]`, the recorded cosine distance is not the claimed maximal value
`2`: the similarity is set to `0`, so the distance `1 - similarity` is
`1`. -/
theorem cosineDistances_zero_norm_not_two :
    cosineDistances [some [(0 : ℝ)], some [1]] ≠ [2] := by
  have h0 : normList [(0 : ℝ)] = 0 := by
    unfold normList normSq
    simp
  have hsim : cosineSimilarity [(0 : ℝ)] [1] = 0 := by
    unfold cosineSimilarity
    rw [if_pos (Or.inl h0)]
  have hd : cosineDistances [some [(0 : ℝ)], some [1]] = [1 - cosineSimilarity [(0 : ℝ)] [1]] :=
    rfl
  rw [hd, hsim]
  simp

/-- C6 (amended): when either of two consecutive window embeddings has
zero norm, the computed cosine similarity is `0` and the recorded cosine
distance for that transition is `1 - 0 = 1` (not the maximum `2` of the
cosine-distance range). -/
theorem cosineSimilarity_zero_norm (a b : List ℝ)
    (h : normList a = 0 ∨ normList b = 0) :
    cosineSimilarity a b = 0 ∧ cosineDistances [some a, some b] = [1] := by
  have hsim : cosineSimilarity a b = 0 := by
    unfold cosineSimilarity
    rw [if_pos h]
  refine ⟨hsim, ?_⟩
  have hd : cosineDistances [some a, some b] = [1 - cosineSimilarity a b] := rfl
  rw [hd, hsim]
  simp

/-- Witness for the amended C6 at the zero-norm pair `[0]`, `[1]`. -/
theorem cosineSimilarity_zero_norm_witness :
    normList [(0 : ℝ)] = 0 ∧
    cosineSimilarity [(0 : ℝ)] [1] = 0 ∧ cosineDistances [some [(0 : ℝ)], some [1]] = [1] := by
  have h0 : normList [(0 : ℝ)] = 0 := by
    unfold normList normSq
    simp
  obtain ⟨h1, h2⟩ := cosineSimilarity_zero_norm [(0 : ℝ)] [1] (Or.inl h0)
  exact ⟨h0, h1, h2⟩

end VectorsGateway

namespace VectorsGateway

/-! # C7 — fewer than three sentences bypass boundary detection -/

/-- Lemma: `fallbackSentenceSplitting` never returns an empty list: either the
filtered regex split is non-empty, or the whole text is returned as a
single sentence. -/
theorem fallbackSentenceSplitting_ne_nil (text : String) :
    fallbackSentenceSplitting text ≠ [] := by
  unfold fallbackSentenceSplitting
  dsimp only
  split
  · next h => exact List.length_pos.mp h
  · simp

/-- Lemma: `splitToSentences` never returns an empty list. -/
theorem splitToSentences_ne_nil (tok : String → Option (List String)) (textCorpus : String) :
    splitToSentences tok textCorpus ≠ [] := by
  unfold splitToSentences
  dsimp only
  rcases htok : tok (cleanText textCorpus) with _ | sentences <;> dsimp only
  · exact fallbackSentenceSplitting_ne_nil _
  · split
    · next h => exact List.length_pos.mp h
    · exact fallbackSentenceSplitting_ne_nil _

/-- C7: when the sentence splitter produces fewer than 3 sentences (and
the content is not blank), `performSemanticChunking` skips boundary
detection and embedding entirely — the result is the sentence list itself,
one chunk per sentence, for every embedding collaborator `embedAll`. -/
theorem performSemanticChunking_few_sentences (tok : String → Option (List String))
    (embedAll : List String → Except String (List (List ℝ)))
    (content : String) (bufferSize percentileThreshold : Nat)
    (htrim : (jsTrim content).data.length ≠ 0)
    (hfew : (splitToSentences tok content).length < 3) :
    performSemanticChunking tok embedAll content bufferSize percentileThreshold =
      splitToSentences tok content := by
  have hne := splitToSentences_ne_nil tok content
  have hlen : (splitToSentences tok content).length ≠ 0 := by
    simpa [List.length_eq_zero] using hne
  unfold performSemanticChunking performSemanticChunkingE
  rw [if_neg htrim]
  dsimp only
  rw [if_neg hlen, if_pos (by omega)]

/-- Witness for C7: `"Hello. World."` with a throwing tokenizer splits (via
the regex fallback) into exactly the 2 sentences `"Hello."`, `"World."`,
and chunking returns them as the 2 chunks. -/
theorem performSemanticChunking_few_sentences_witness :
    performSemanticChunking (fun _ => none) (fun _ => Except.ok []) "Hello. World." 1 90 =
      ["Hello.", "World."] := by
  have h := performSemanticChunking_few_sentences (fun _ => none) (fun _ => Except.ok [])
    "Hello. World." 1 90 (by decide) (by decide)
  exact h.trans (by decide)

/-! # C8 — the combined context window text -/

theorem strJoin_cons (s : String) (l : List String) : strJoin (s :: l) = s ++ strJoin l := rfl

theorem spaceJoin_cons_cons (s u : String) (t : List String) :
    spaceJoin (s :: u :: t) = s ++ " " ++ spaceJoin (u :: t) := rfl

/-- A `+=`-style string fold is the initial value followed by the
concatenation of the pieces. -/
theorem foldl_strAppend (f : Nat → String) :
    ∀ (l : List Nat) (init : String),
      l.foldl (fun acc j => acc ++ f j) init = init ++ strJoin (l.map f) := by
  intro l
  induction l with
  | nil => intro init; simp [strJoin, strAppend_empty]
  | cons j t ih =>
    intro init
    rw [List.foldl_cons, ih, List.map_cons, strJoin_cons, strAppend_assoc]

/-- Appending one more piece to a join of space-terminated pieces is the
space-separated join of the pieces plus the final piece. -/
theorem strJoin_map_space_append (W : List String) (c : String) :
    strJoin (W.map (fun s => s ++ " ")) ++ c = spaceJoin (W ++ [c]) := by
  induction W with
  | nil => simp [strJoin, spaceJoin, strEmpty_append]
  | cons s t ih =>
    rw [List.map_cons, strJoin_cons, List.cons_append]
    rcases ht : t ++ [c] with _ | ⟨u, v⟩
    · exact absurd ht (by simp)
    · rw [spaceJoin_cons_cons, ← ht, ← ih, strAppend_assoc, strAppend_assoc]

/-- The guarded index loops of `structureSentences` enumerate a contiguous
slice of the sentence array. -/
theorem range'_map_getD (s : List String) :
    ∀ (k a : Nat), a + k ≤ s.length →
      (List.range' a k).map (fun j => s.getD j "") = (s.drop a).take k := by
  intro k
  induction k with
  | zero => intro a ha; simp
  | succ k ih =>
    intro a ha
    rw [List.range'_succ, List.map_cons, ih (a + 1) (by omega)]
    have ha' : a < s.length := by omega
    rw [List.getD_eq_getElem _ _ ha', List.drop_eq_getElem_cons ha', List.take_succ_cons]

/-- C8 (counterexample): for sentences `["a", "b", "c"]` with
`bufferSize = 2`, the combined window of sentence 0 is `"a bc"` — the two
following sentences are appended with no separator between them — not the
claimed single-space join `"a b c"` of the window. -/
theorem structureSentences_combined_not_spaced :
    ((structureSentences ["a", "b", "c"] 2).getD 0 ⟨"", 0, ""⟩).combined_sentence ≠
      spaceJoin ["a", "b", "c"] := by
  decide

/-- C8 (amended): the combined window text for sentence `i` with buffer
`b` is the trim of: the sentences at indices `max(0, i-b) … i` joined with
single spaces, then one space, then the sentences at indices
`i+1 … min(n-1, i+b)` concatenated **without** separators (the
next-neighbor loop appends `sentence` with no trailing space). -/
theorem structureSentences_combined (sentences : List String) (bufferSize i : Nat)
    (hi : i < sentences.length) :
    ((structureSentences sentences bufferSize).getD i ⟨"", 0, ""⟩).combined_sentence =
      jsTrim (spaceJoin ((sentences.drop (i - bufferSize)).take (min bufferSize i + 1)) ++ " " ++
        strJoin ((sentences.drop (i + 1)).take (min bufferSize (sentences.length - 1 - i)))) := by
  have hgs : (structureSentences sentences bufferSize).getD i ⟨"", 0, ""⟩ =
      ⟨sentences.getD i "", i, combinedSentenceAt sentences bufferSize i⟩ := by
    unfold structureSentences
    rw [List.getD_eq_getElem _ _ (by simpa using hi), List.getElem_map, List.getElem_range]
  rw [hgs]
  unfold combinedSentenceAt
  dsimp only
  rw [foldl_strAppend, foldl_strAppend, strEmpty_append]
  have hprevcur : (sentences.drop (i - bufferSize)).take (min bufferSize i + 1) =
      ((List.range' (i - bufferSize) (min bufferSize i)).map (fun j => sentences.getD j "")) ++
        [sentences.getD i ""] := by
    rw [← range'_map_getD sentences (min bufferSize i + 1) (i - bufferSize) (by omega),
      List.range'_1_concat, List.map_append]
    rw [show (i - bufferSize) + min bufferSize i = i by omega]
    rfl
  have hnext : (sentences.drop (i + 1)).take (min bufferSize (sentences.length - 1 - i)) =
      (List.range' (i + 1) (min bufferSize (sentences.length - 1 - i))).map
        (fun j => sentences.getD j "") := by
    rw [range'_map_getD sentences _ (i + 1) (by omega)]
  rw [hprevcur, hnext, ← strJoin_map_space_append, List.map_map]
  congr 1
  simp [Function.comp_def, strAppend_assoc]

/-- Witness for the amended C8 at sentences `["a", "b", "c"]`,
`bufferSize = 2`, `i = 0`. -/
theorem structureSentences_combined_witness :
    (0 : Nat) < (["a", "b", "c"] : List String).length ∧
    ((structureSentences ["a", "b", "c"] 2).getD 0 ⟨"", 0, ""⟩).combined_sentence =
      jsTrim (spaceJoin (((["a", "b", "c"] : List String).drop (0 - 2)).take (min 2 0 + 1)) ++
        " " ++ strJoin (((["a", "b", "c"] : List String).drop (0 + 1)).take
          (min 2 ((["a", "b", "c"] : List String).length - 1 - 0)))) :=
  ⟨by decide, structureSentences_combined ["a", "b", "c"] 2 0 (by decide)⟩

end VectorsGateway

namespace VectorsGateway

/-! # Metadata-store lemmas for the processDocument claims -/

theorem metaKeyMatches_self (documentId knowledgeBaseId userId : Int) (vc : Nat) (bv : Bool) :
    metaKeyMatches documentId knowledgeBaseId ⟨documentId, knowledgeBaseId, userId, vc, bv⟩ =
      true := by
  simp [metaKeyMatches]

theorem find?_map_reset (row : MetaRow) :
    ∀ rows : List MetaRow,
      rows.any (metaKeyMatches row.documentId row.knowledgeBaseId) = true →
      (rows.map (fun r =>
          if metaKeyMatches row.documentId row.knowledgeBaseId r then row else r)).find?
        (metaKeyMatches row.documentId row.knowledgeBaseId) = some row := by
  intro rows
  induction rows with
  | nil => intro h; simp at h
  | cons a t ih =>
    intro h
    rw [List.map_cons]
    by_cases ha : metaKeyMatches row.documentId row.knowledgeBaseId a = true
    · rw [if_pos ha, List.find?_cons_of_pos _ (by simp [metaKeyMatches])]
    · rw [if_neg ha, List.find?_cons_of_neg _ ha]
      apply ih
      rw [List.any_cons] at h
      simpa [ha] using h

theorem find?_append_of_not_any (row : MetaRow) :
    ∀ rows : List MetaRow,
      rows.any (metaKeyMatches row.documentId row.knowledgeBaseId) = false →
      (rows ++ [row]).find? (metaKeyMatches row.documentId row.knowledgeBaseId) = some row := by
  intro rows
  induction rows with
  | nil =>
    intro h
    rw [List.nil_append]
    exact List.find?_cons_of_pos _ (by simp [metaKeyMatches])
  | cons a t ih =>
    intro h
    rw [List.any_cons] at h
    have h2 := Bool.or_eq_false_iff.mp h
    rw [List.cons_append, List.find?_cons_of_neg _ (by simp [h2.1])]
    exact ih h2.2

/-- After the create-or-reset upsert the first row matching the pair key is
exactly the upserted row. -/
theorem find?_upsert (documentId knowledgeBaseId userId : Int) (vc : Nat) (bv : Bool)
    (rows : List MetaRow) :
    (upsertDocumentVectorMetadata ⟨documentId, knowledgeBaseId, userId, vc, bv⟩ rows).find?
      (metaKeyMatches documentId knowledgeBaseId) =
      some ⟨documentId, knowledgeBaseId, userId, vc, bv⟩ := by
  unfold upsertDocumentVectorMetadata
  split
  · next h => exact find?_map_reset ⟨documentId, knowledgeBaseId, userId, vc, bv⟩ rows h
  · next h =>
    exact find?_append_of_not_any ⟨documentId, knowledgeBaseId, userId, vc, bv⟩ rows
      (by simpa using h)

/-- Lemma: `markDocumentAsVectorized` preserves the key fields, so searching by
key commutes with it. -/
theorem find?_mark (documentId knowledgeBaseId markId : Int) (n : Nat) (rows : List MetaRow) :
    (markDocumentAsVectorized markId n rows).find? (metaKeyMatches documentId knowledgeBaseId) =
      Option.map
        (fun r => if r.documentId == markId then
            { r with isVectorized := true, vectorCount := n } else r)
        (rows.find? (metaKeyMatches documentId knowledgeBaseId)) := by
  unfold markDocumentAsVectorized
  rw [List.find?_map]
  have hpf : (metaKeyMatches documentId knowledgeBaseId ∘ fun r =>
      if r.documentId == markId then { r with isVectorized := true, vectorCount := n } else r) =
      metaKeyMatches documentId knowledgeBaseId := by
    funext r
    simp only [Function.comp_apply]
    split <;> simp [metaKeyMatches]
  rw [hpf]

/-- Every key-matching row right after the upsert step of `processDocument`
carries `isVectorized = false`. -/
theorem upsert_key_not_vectorized (documentId knowledgeBaseId userId : Int)
    (rows : List MetaRow) :
    ∀ r ∈ upsertDocumentVectorMetadata ⟨documentId, knowledgeBaseId, userId, 0, false⟩ rows,
      metaKeyMatches documentId knowledgeBaseId r = true → r.isVectorized = false := by
  intro r hr hkey
  unfold upsertDocumentVectorMetadata at hr
  split at hr
  · rw [List.mem_map] at hr
    obtain ⟨x, hx, hfx⟩ := hr
    by_cases hm : metaKeyMatches documentId knowledgeBaseId x = true
    · rw [if_pos hm] at hfx
      rw [← hfx]
    · rw [if_neg hm] at hfx
      rw [← hfx] at hkey
      exact absurd hkey hm
  · next h =>
    rw [List.mem_append] at hr
    rcases hr with hr | hr
    · exact absurd (List.any_eq_true.mpr ⟨r, hr, hkey⟩) h
    · rw [List.mem_singleton] at hr
      rw [hr]

/-- The `content` projection of the chunk records built by
`processDocument` gives back the chunk texts. -/
theorem chunkTexts_eq (L : List String) (documentId knowledgeBaseId userId : Int)
    (content : String) :
    ((L.enum.map (fun p => (⟨documentId * 1000 + (p.1 : Int), p.2, documentId,
        knowledgeBaseId, userId, p.1, L.length, content⟩ : ChunkedDocument))).map
      (fun c => c.content)) = L := by
  rw [List.map_map]
  have h : ((fun c : ChunkedDocument => c.content) ∘
      (fun p : Nat × String => (⟨documentId * 1000 + (p.1 : Int), p.2, documentId,
        knowledgeBaseId, userId, p.1, L.length, content⟩ : ChunkedDocument))) =
      Prod.snd := rfl
  rw [h, List.enum_map_snd]

end VectorsGateway

namespace VectorsGateway

/-! # C3 — embedding-count mismatch fails fast with a descriptive error -/

/-- C3: if the embedding collaborator answers the chunk-embedding call
with `ok embs` where `embs` has a different length than the chunk list,
`processDocument` fails with the wrapped error naming the expected count
(the chunk count) and the actual count, no vector point is stored (the
points are exactly the result of the pre-delete), and no key-matching
metadata row is marked vectorized in that run. -/
theorem processDocument_embedding_mismatch (tok : String → Option (List String))
    (embedAll : List String → Except String (List (List ℝ)))
    (content : String) (documentId knowledgeBaseId userId : Int) (st : Store)
    (embs : List (List ℝ))
    (hEmb : embedAll (performSemanticChunking tok embedAll content 1 90) = Except.ok embs)
    (hne : embs.length ≠ (performSemanticChunking tok embedAll content 1 90).length) :
    (processDocument tok embedAll content documentId knowledgeBaseId userId st).2 =
      Except.error ("Failed to process document: Embedding mismatch: expected " ++
        toString (performSemanticChunking tok embedAll content 1 90).length ++
        " embeddings, got " ++ toString embs.length ++ ". Chunk texts: " ++
        toString (performSemanticChunking tok embedAll content 1 90).length ++
        ", Embeddings: " ++ toString embs.length) ∧
    (processDocument tok embedAll content documentId knowledgeBaseId userId st).1.points =
      qdrantDeleteDocumentVectors documentId knowledgeBaseId st.points ∧
    ∀ r ∈ (processDocument tok embedAll content documentId knowledgeBaseId userId st).1.metaRows,
      metaKeyMatches documentId knowledgeBaseId r = true → r.isVectorized = false := by
  unfold processDocument
  dsimp only
  rw [chunkTexts_eq, hEmb]
  simp only [List.length_map, List.enum_length]
  rw [if_pos hne]
  exact ⟨rfl, rfl, upsert_key_not_vectorized documentId knowledgeBaseId userId st.metaRows⟩

/-- Witness for C3: a tokenizer yielding 3 sentences, an embedding
collaborator that rejects the window-embedding call (forcing the simple
fallback, which makes 1 chunk) and then returns 2 vectors for the 1 chunk
text; `ingest` fails naming `expected 1`, `got 2`. -/
theorem processDocument_embedding_mismatch_witness :
    (processDocument (fun _ => some ["One.", "Two.", "Three."])
        (fun ts => if ts.length = 1 then Except.ok [[1], [1]] else Except.error "boom")
        "One. Two. Three." 1 2 3 ⟨[], []⟩).2 =
      Except.error ("Failed to process document: Embedding mismatch: expected 1 " ++
        "embeddings, got 2. Chunk texts: 1, Embeddings: 2") ∧
    (processDocument (fun _ => some ["One.", "Two.", "Three."])
        (fun ts => if ts.length = 1 then Except.ok [[1], [1]] else Except.error "boom")
        "One. Two. Three." 1 2 3 ⟨[], []⟩).1.points = [] := by
  have h := processDocument_embedding_mismatch (fun _ => some ["One.", "Two.", "Three."])
    (fun ts => if ts.length = 1 then Except.ok [[1], [1]] else Except.error "boom")
    "One. Two. Three." 1 2 3 ⟨[], []⟩ [[1], [1]] (by rfl) (by decide)
  refine ⟨?_, ?_⟩
  · rw [h.1]
    decide
  · rw [h.2.1]
    rfl

/-! # C10 — zero chunks: ingest succeeds with vectorCount 0 -/

/-- C10: when chunking yields zero chunks (e.g. whitespace-only
content, where semantic chunking throws on the blank input and the simple
fallback produces no sentences), `processDocument` does not raise: the
count check passes with `0 = 0`, no vector point is upserted, the
`(documentId, knowledgeBaseId)` metadata row ends up `isVectorized = true`
with `vectorCount = 0`, and `vectorCount 0` is returned.  The hypothesis
`embedAll [] = ok []` is what the real client does on an empty text list
(`Promise.all` of zero requests). -/
theorem processDocument_empty_chunking (tok : String → Option (List String))
    (embedAll : List String → Except String (List (List ℝ)))
    (content : String) (documentId knowledgeBaseId userId : Int) (st : Store)
    (hchunks : performSemanticChunking tok embedAll content 1 90 = [])
    (hnil : embedAll [] = Except.ok []) :
    (processDocument tok embedAll content documentId knowledgeBaseId userId st).2 =
      Except.ok 0 ∧
    (processDocument tok embedAll content documentId knowledgeBaseId userId st).1.points =
      qdrantDeleteDocumentVectors documentId knowledgeBaseId st.points ∧
    (processDocument tok embedAll content documentId knowledgeBaseId userId
        st).1.metaRows.find? (metaKeyMatches documentId knowledgeBaseId) =
      some ⟨documentId, knowledgeBaseId, userId, 0, true⟩ := by
  have heq : processDocument tok embedAll content documentId knowledgeBaseId userId st =
      ({ points := qdrantDeleteDocumentVectors documentId knowledgeBaseId st.points,
         metaRows := markDocumentAsVectorized documentId 0
           (upsertDocumentVectorMetadata
             ⟨documentId, knowledgeBaseId, userId, 0, false⟩ st.metaRows) },
        Except.ok 0) := by
    unfold processDocument
    dsimp only
    rw [hchunks]
    simp only [List.enum_nil, List.map_nil, List.length_nil]
    rw [hnil]
    dsimp only
    rw [if_neg (by simp)]
    simp only [List.length_nil, List.range_zero, List.find?_nil, List.zip_nil_right,
      List.map_nil, List.append_nil]
  refine ⟨by rw [heq], by rw [heq], ?_⟩
  rw [heq]
  show (markDocumentAsVectorized documentId 0
      (upsertDocumentVectorMetadata
        ⟨documentId, knowledgeBaseId, userId, 0, false⟩ st.metaRows)).find?
      (metaKeyMatches documentId knowledgeBaseId) = _
  rw [find?_mark, find?_upsert]
  simp

/-- Witness for C10: whitespace-only content with the real
per-text embedding client (`getEmbeddings`) over a stub fetch. -/
theorem processDocument_empty_chunking_witness :
    (processDocument (fun _ => some []) (getEmbeddings (fun _ => Except.ok [(1 : ℝ)]))
        " " 1 2 3 ⟨[], []⟩).2 = Except.ok 0 ∧
    (processDocument (fun _ => some []) (getEmbeddings (fun _ => Except.ok [(1 : ℝ)]))
        " " 1 2 3 ⟨[], []⟩).1.points =
      qdrantDeleteDocumentVectors 1 2 (Store.mk [] []).points ∧
    (processDocument (fun _ => some []) (getEmbeddings (fun _ => Except.ok [(1 : ℝ)]))
        " " 1 2 3 ⟨[], []⟩).1.metaRows.find? (metaKeyMatches 1 2) =
      some ⟨1, 2, 3, 0, true⟩ :=
  processDocument_empty_chunking (fun _ => some []) (getEmbeddings (fun _ => Except.ok [(1 : ℝ)]))
    " " 1 2 3 ⟨[], []⟩ (by decide) rfl

end VectorsGateway
